import Mathlib

/-!
Verification of the basemap.at tile mosaic downloader
(`basemap_at_downloader.py`).

The development shallowly embeds the `BasemapDownloader` class: the
slippy-map tile-coordinate mapper (`_calculate_tile_coordinates`,
`_calculate_tile_range`), the per-tile asynchronous fetch
(`_download_tile_async`, `_download_tiles_in_parallel_async`), the canvas
assembler (`_assemble_tiles`), the GeoTIFF writer (`_save_as_geotiff`),
the orchestration entry point (`download_tiles`) and the singleton
construction protocol (`__new__` / `__init__`).

Python floats are modelled by exact real numbers; Python `int()` is
modelled by truncation toward zero; Python exceptions are modelled by an
`Except` error value.  The small pieces of third-party behaviour the code
relies on are embedded from the libraries' documented semantics:
`PIL.Image.new` / `Image.paste` (black background, clipped block copy,
`ValueError` on a negative size) and `rasterio.transform.from_bounds`
(the affine transform `(c a b; f d e) = (west, (east-west)/width, 0;
north, 0, (south-north)/height)`).
-/

namespace BasemapVerify

open Real

/-! ### Pixels and PIL images -/

/-- An 8-bit RGB pixel: three colour channels of 8-bit depth.  `'RGB'`
mode in PIL stores exactly these. -/
abbrev Pixel := Fin 256 × Fin 256 × Fin 256

/-- The background colour of a fresh `'RGB'` canvas: `PIL.Image.new`
fills with black, `(0, 0, 0)`. -/
def background : Pixel := (0, 0, 0)

/-- Model of a `PIL.Image.Image`: a mode string, a size, and the pixel
grid as a total function (reads outside the bounds are never used). -/
structure Img where
  mode : String
  width : ℤ
  height : ℤ
  px : ℤ → ℤ → Pixel

/-- The Python exceptions the embedded code can raise. -/
inductive PyError where
  /-- `math.log` applied to a non-positive number (`ValueError: math
  domain error`). -/
  | mathDomainError
  /-- Division by zero: raised by `rasterio.transform.from_bounds` when
  the raster width or height is zero. -/
  | zeroDivisionError
  /-- `PIL.Image.new` applied to a negative size. -/
  | valueError
  /-- `object.__new__() takes exactly one argument`: raised when
  `__new__` forwards explicit constructor arguments to `object.__new__`
  while `__new__` is overridden. -/
  | typeError
deriving DecidableEq

/-- Model of `Image.new('RGB', (w, h))`: a black canvas of the requested
size; a negative size raises `ValueError`. -/
def imageNew (mode : String) (w h : ℤ) : Except PyError Img :=
  if 0 ≤ w ∧ 0 ≤ h then .ok ⟨mode, w, h, fun _ _ => background⟩
  else .error .valueError

/-- Model of `dst.paste(src, (ox, oy))`: the source pixel `(i, j)` lands
on destination pixel `(ox + i, oy + j)`; the copy is clipped to the
destination bounds; mode and size of the destination are unchanged. -/
def Img.paste (dst src : Img) (ox oy : ℤ) : Img :=
  { dst with
    px := fun i j =>
      if ox ≤ i ∧ i < ox + src.width ∧ oy ≤ j ∧ j < oy + src.height ∧
         0 ≤ i ∧ i < dst.width ∧ 0 ≤ j ∧ j < dst.height
      then src.px (i - ox) (j - oy)
      else dst.px i j }

/-! ### Fetching (`_download_tile_async`) -/

/-- The outcome of one HTTP GET for a tile, as seen by
`_download_tile_async`: either a response with a status code and a body
(`some img` when `Image.open` can decode it, `none` when decoding
raises), or a transport error raised by `aiohttp`. -/
inductive FetchOutcome where
  | response (status : ℕ) (body : Option Img)
  | transportError

/-- A fetch that produces no usable tile: a non-success status code or a
transport error. -/
def isFetchFailure : FetchOutcome → Prop
  | .response status _ => status ≠ 200
  | .transportError => True

/-- A saved tile file `tile_{x}_{y}.jpeg`: the coordinates recorded in
the file name together with the decoded image content.
`_assemble_tiles` later parses `x`, `y` back out of the name. -/
structure TileFile where
  x : ℤ
  y : ℤ
  img : Img

/-- Model of `_download_tile_async`: on status 200 the body is decoded
and saved as `tile_{x}_{y}.jpeg`; a non-success status is logged and
yields `None`; any exception (transport error, undecodable body) is
caught by the `try/except` and yields `None`.  No exception escapes. -/
def downloadTileAsync (x y : ℤ) : FetchOutcome → Option TileFile
  | .response status body =>
      if status = 200 then body.map (fun img => ⟨x, y, img⟩) else none
  | .transportError => none

/-- The tile URL built by `download_tiles` for grid cell `(x, y)`. -/
def tileURL (layer style tms : String) (zoom : ℕ) (x y : ℤ) : String :=
  "https://mapsneu.wien.gv.at/basemap/" ++ layer ++ "/" ++ style ++ "/" ++
    tms ++ "/" ++ toString zoom ++ "/" ++ toString y ++ "/" ++ toString x ++ ".jpeg"

/-- `range lo (hi+1)` over the integers, as used to enumerate tile
indices: empty when `hi < lo`. -/
def intRange (lo hi : ℤ) : List ℤ :=
  (List.range (hi + 1 - lo).toNat).map (fun i => lo + (i : ℤ))

/-- The request list of `download_tiles`: one `(url, x, y)` triple per
cell, `y` varying in the outer loop, `x` in the inner, matching the
list comprehension on lines 166-170. -/
def tileRequests (layer style tms : String) (zoom : ℕ)
    (min_x max_x min_y max_y : ℤ) : List (String × ℤ × ℤ) :=
  (intRange min_y max_y).flatMap (fun y =>
    (intRange min_x max_x).map (fun x => (tileURL layer style tms zoom x y, x, y)))

/-- Model of `_download_tiles_in_parallel_async`: each request is fetched
with its own outcome (given by the `oracle`); failed fetches contribute
nothing (`if path:` filters out the `None` results).  The completion
order is immaterial for every property proved below. -/
def downloadTilesInParallel (reqs : List (String × ℤ × ℤ))
    (oracle : ℤ × ℤ → FetchOutcome) : List TileFile :=
  reqs.filterMap (fun r => downloadTileAsync r.2.1 r.2.2 (oracle (r.2.1, r.2.2)))

/-! ### Assembly (`_assemble_tiles`) -/

/-- The paste loop of `_assemble_tiles`: each saved tile is pasted at
`((x - min_tile_x) * tile_size, (y - min_tile_y) * tile_size)` where
`x`, `y` are parsed from its file name. -/
def pasteAll (tiles : List TileFile) (min_x min_y ts : ℤ) (canvas : Img) : Img :=
  tiles.foldl
    (fun im f => im.paste f.img ((f.x - min_x) * ts) ((f.y - min_y) * ts)) canvas

/-- Model of `_assemble_tiles`: allocate the `'RGB'` canvas of size
`((max_x - min_x + 1) * ts, (max_y - min_y + 1) * ts)` and paste every
saved tile at its offset.  `Image.new` raises on a negative size. -/
def assembleTiles (tiles : List TileFile) (min_x max_x min_y max_y ts : ℤ) :
    Except PyError Img :=
  match imageNew "RGB" ((max_x - min_x + 1) * ts) ((max_y - min_y + 1) * ts) with
  | .error e => .error e
  | .ok canvas => .ok (pasteAll tiles min_x min_y ts canvas)

/-! ### Georeferencing (`_save_as_geotiff`) -/

/-- A rasterio affine transform `| a b c |  | d e f |`: pixel
`(col, row)` maps to `(c + a*col + b*row, f + d*col + e*row)`. -/
structure Affine where
  a : ℝ
  b : ℝ
  c : ℝ
  d : ℝ
  e : ℝ
  f : ℝ

open Classical in
/-- Model of `rasterio.transform.from_bounds(west, south, east, north,
width, height)`: it divides `(east - west)` by `width` and
`(south - north)` by `height`, so a zero width or height raises
`ZeroDivisionError`. -/
noncomputable def fromBounds (west south east north width height : ℝ) :
    Except PyError Affine :=
  if width = 0 ∨ height = 0 then .error .zeroDivisionError
  else .ok ⟨(east - west) / width, 0, west, 0, (south - north) / height, north⟩

/-- Apply an affine transform to a pixel position. -/
def Affine.apply (T : Affine) (col row : ℝ) : ℝ × ℝ :=
  (T.c + T.a * col + T.b * row, T.f + T.d * col + T.e * row)

/-- The metadata of the raster file written by `_save_as_geotiff`. -/
structure GeoTiff where
  path : String
  height : ℤ
  width : ℤ
  count : ℕ
  dtype : String
  crs : String
  transform : Affine

/-- Model of `_save_as_geotiff`: world bounds `west = min_x * ts`,
`north = min_y * ts`, `east = (max_x + 1) * ts`, `south =
(max_y + 1) * ts`, transform from `from_bounds` (which raises
`ZeroDivisionError` on a zero-size image), three 8-bit bands. -/
noncomputable def saveAsGeotiff (full_image : Img) (output_file : String)
    (min_x max_x min_y max_y ts : ℤ) (crs : String) : Except PyError GeoTiff :=
  match fromBounds ((min_x * ts : ℤ) : ℝ) (((max_y + 1) * ts : ℤ) : ℝ)
      (((max_x + 1) * ts : ℤ) : ℝ) (((min_y * ts : ℤ) : ℝ))
      (full_image.width : ℝ) (full_image.height : ℝ) with
  | .error e => .error e
  | .ok transform =>
      .ok ⟨output_file, full_image.height, full_image.width, 3, "uint8", crs,
        transform⟩

/-! ### Tile coordinates (`_calculate_tile_coordinates`, lines 54-70) -/

noncomputable section

/-- Model of `math.radians`. -/
def radiansOf (deg : ℝ) : ℝ := deg * π / 180

/-- The quantity `math.tan(lat_rad) + (1 / math.cos(lat_rad))` from line
69, computed before `math.log` is applied. -/
def mercFactor (lat : ℝ) : ℝ :=
  Real.tan (radiansOf lat) + 1 / Real.cos (radiansOf lat)

/-- Model of Python `int()` applied to a float: truncation toward zero. -/
def pyInt (r : ℝ) : ℤ := if 0 ≤ r then ⌊r⌋ else ⌈r⌉

/-- The float truncated on line 68: `(lon_deg + 180.0) / 360.0 * n`. -/
def xArg (lon : ℝ) (zoom : ℕ) : ℝ := (lon + 180) / 360 * 2 ^ zoom

/-- The float truncated on line 69:
`(1.0 - log(tan(lat_rad) + sec(lat_rad)) / pi) / 2.0 * n`. -/
def yArg (lat : ℝ) (zoom : ℕ) : ℝ :=
  (1 - Real.log (mercFactor lat) / π) / 2 * 2 ^ zoom

open Classical in
/-- Model of `_calculate_tile_coordinates(lat_deg, lon_deg, zoom)` over
exact reals.  The only raising operation is `math.log`, which raises a
math domain error on a non-positive argument (a double-precision cosine
is never exactly zero, so `1 / math.cos(lat_rad)` never raises);
otherwise the pair `(x_tile, y_tile)` of truncated floats is returned. -/
def calculateTileCoordinates (lat lon : ℝ) (zoom : ℕ) :
    Except PyError (ℤ × ℤ) :=
  if mercFactor lat ≤ 0 then .error .mathDomainError
  else .ok (pyInt (xArg lon zoom), pyInt (yArg lat zoom))

/-- Model of `_calculate_tile_range(lat_min, lon_min, lat_max, lon_max,
zoom)` (lines 72-88): the NW corner `(lat_max, lon_min)` gives
`(min_tile_x, min_tile_y)`, the SE corner `(lat_min, lon_max)` gives
`(max_tile_x, max_tile_y)`; the result tuple is ordered
`(min_x, max_x, min_y, max_y)` as on line 88. -/
def calculateTileRange (lat_min lon_min lat_max lon_max : ℝ) (zoom : ℕ) :
    Except PyError (ℤ × ℤ × ℤ × ℤ) :=
  match calculateTileCoordinates lat_max lon_min zoom,
        calculateTileCoordinates lat_min lon_max zoom with
  | .ok (min_x, min_y), .ok (max_x, max_y) => .ok (min_x, max_x, min_y, max_y)
  | .error e, _ => .error e
  | _, .error e => .error e

/-! ### Orchestration (`download_tiles`, lines 144-181) -/

/-- Everything observable about one `download_tiles` run: the request
list, the tile files that survived fetching, the assembled canvas, the
metadata of the written raster, and the Python return value of the
function.  `download_tiles` has no `return` statement, so `retval` —
typed as the output-path-and-missing-count report the specification
asks for — is always `none` (Python `None`). -/
structure RunTrace where
  requests : List (String × ℤ × ℤ)
  files : List TileFile
  image : Img
  written : GeoTiff
  retval : Option (String × ℕ)

/-- Model of `download_tiles`: compute the tile range, build the request
list, fetch every tile (each failure merely drops its tile), assemble
the canvas, write the GeoTIFF at `output_file`, and return `None`.
`ts` and `crs` are the instance fields `self.tile_size` / `self.crs`. -/
def downloadTilesRun (lat_min lon_min lat_max lon_max : ℝ) (zoom : ℕ)
    (layer style tms output_file : String) (oracle : ℤ × ℤ → FetchOutcome)
    (ts : ℤ) (crs : String) : Except PyError RunTrace :=
  match calculateTileRange lat_min lon_min lat_max lon_max zoom with
  | .error e => .error e
  | .ok (min_x, max_x, min_y, max_y) =>
    let reqs := tileRequests layer style tms zoom min_x max_x min_y max_y
    let files := downloadTilesInParallel reqs oracle
    match assembleTiles files min_x max_x min_y max_y ts with
    | .error e => .error e
    | .ok img =>
      match saveAsGeotiff img output_file min_x max_x min_y max_y ts crs with
      | .error e => .error e
      | .ok gt => .ok ⟨reqs, files, img, gt, none⟩

/-- Whether a run completed without an exception. -/
def runOk (r : Except PyError RunTrace) : Bool :=
  match r with
  | .ok _ => true
  | .error _ => false

/-- The Python return value of a completed run (`none` when the run
raised). -/
def runRetval (r : Except PyError RunTrace) : Option (Option (String × ℕ)) :=
  match r with
  | .ok tr => some tr.retval
  | .error _ => none

/-- The request list of a completed run. -/
def runRequests (r : Except PyError RunTrace) : Option (List (String × ℤ × ℤ)) :=
  match r with
  | .ok tr => some tr.requests
  | .error _ => none

end

/-! ### Singleton construction (`__new__` / `__init__`) -/

/-- A `BasemapDownloader` instance: the three configuration fields and
the `_initialized` guard (field `initDone` here). -/
structure DownloaderObj where
  tile_size : ℤ
  output_dir : String
  crs : String
  initDone : Bool
deriving DecidableEq

/-- Model of a `BasemapDownloader(...)` call.  `args` records whether
the caller passed any explicit constructor arguments (`some` of the
values) or none at all (`none`, so the defaults
`256 / "downloaded_tiles" / "EPSG:3857"` of line 23 apply).

`__new__` consults the class-level `_instance`.  When it is absent it
calls `object.__new__(cls, *args, **kwargs)`; because `__new__` is
overridden, CPython raises `TypeError` whenever any explicit argument
was forwarded, leaving the class state unchanged — so a first
construction can only succeed with the defaults.  When an instance
already exists it is returned as is (`object.__new__` is not called, so
no `TypeError` regardless of arguments).  `__init__` then fills the
configuration fields, clears the working directory and sets the
`_initialized` guard — only when the guard is still `False`.  The
result is `(returned instance, new class state, whether the working
directory was cleared)`. -/
def constructDownloader (instVar : Option DownloaderObj)
    (args : Option (ℤ × String × String)) :
    Except PyError (DownloaderObj × Option DownloaderObj × Bool) :=
  match instVar with
  | some obj =>
      if obj.initDone then .ok (obj, some obj, false)
      else
        let a := args.getD (256, "downloaded_tiles", "EPSG:3857")
        .ok (⟨a.1, a.2.1, a.2.2, true⟩, some ⟨a.1, a.2.1, a.2.2, true⟩, true)
  | none =>
      match args with
      | some _ => .error .typeError
      | none =>
          .ok (⟨256, "downloaded_tiles", "EPSG:3857", true⟩,
               some ⟨256, "downloaded_tiles", "EPSG:3857", true⟩, true)

/-! ## Lemmas: the Mercator factor `tan + sec` on the Web-Mercator range -/

lemma abs_radiansOf_lt_pi_div_two {lat : ℝ} (h : |lat| ≤ 85.0511) :
    |radiansOf lat| < π / 2 := by
  have hpi := Real.pi_pos
  have h180 : |radiansOf lat| = |lat| * π / 180 := by
    rw [radiansOf, abs_div, abs_mul, abs_of_pos hpi]
    norm_num
  have h90 : |lat| < 90 := lt_of_le_of_lt h (by norm_num)
  rw [h180]
  nlinarith [abs_nonneg lat]

lemma cos_radiansOf_pos {lat : ℝ} (h : |lat| ≤ 85.0511) :
    0 < Real.cos (radiansOf lat) :=
  Real.cos_pos_of_mem_Ioo (Set.mem_Ioo.mpr (abs_lt.mp (abs_radiansOf_lt_pi_div_two h)))

/-- The half-angle identity `tan θ + sec θ = tan (π/4 + θ/2)` on the open
principal interval. -/
lemma tan_add_sec_eq {θ : ℝ} (h₁ : -(π / 2) < θ) (h₂ : θ < π / 2) :
    Real.tan θ + 1 / Real.cos θ = Real.tan (π / 4 + θ / 2) := by
  have hpi := Real.pi_pos
  set u := π / 4 + θ / 2 with hu
  clear_value u
  have hu0 : 0 < u := by rw [hu]; linarith
  have hu2 : u < π / 2 := by rw [hu]; linarith
  have hsu : 0 < Real.sin u := Real.sin_pos_of_pos_of_lt_pi hu0 (by linarith)
  have hcu : 0 < Real.cos u := Real.cos_pos_of_mem_Ioo ⟨by linarith, hu2⟩
  have hθ : θ = 2 * u - π / 2 := by rw [hu]; ring
  have hsin : Real.sin θ = -Real.cos (2 * u) := by
    nth_rewrite 1 [hθ]
    rw [Real.sin_sub_pi_div_two]
  have hcos : Real.cos θ = Real.sin (2 * u) := by
    nth_rewrite 1 [hθ]
    rw [Real.cos_sub_pi_div_two]
  have hsq := Real.sin_sq_add_cos_sq u
  rw [Real.tan_eq_sin_div_cos, Real.tan_eq_sin_div_cos, hsin, hcos,
    Real.sin_two_mul, Real.cos_two_mul]
  field_simp
  linear_combination (-2 * Real.cos u) * hsq

lemma mercFactor_eq_tan {lat : ℝ} (h : |lat| ≤ 85.0511) :
    mercFactor lat = Real.tan (π / 4 + radiansOf lat / 2) := by
  have a := abs_lt.mp (abs_radiansOf_lt_pi_div_two h)
  rw [mercFactor, tan_add_sec_eq a.1 a.2]

lemma mercFactor_pos {lat : ℝ} (h : |lat| ≤ 85.0511) : 0 < mercFactor lat := by
  have a := abs_lt.mp (abs_radiansOf_lt_pi_div_two h)
  rw [mercFactor_eq_tan h]
  exact Real.tan_pos_of_pos_of_lt_pi_div_two (by linarith) (by linarith)

lemma mercFactor_le_mercFactor {lat₁ lat₂ : ℝ} (h₁ : |lat₁| ≤ 85.0511)
    (h₂ : |lat₂| ≤ 85.0511) (h : lat₁ ≤ lat₂) :
    mercFactor lat₁ ≤ mercFactor lat₂ := by
  have hpi := Real.pi_pos
  have a₁ := abs_lt.mp (abs_radiansOf_lt_pi_div_two h₁)
  have a₂ := abs_lt.mp (abs_radiansOf_lt_pi_div_two h₂)
  rw [mercFactor_eq_tan h₁, mercFactor_eq_tan h₂]
  have hθ : radiansOf lat₁ ≤ radiansOf lat₂ := by
    rw [radiansOf, radiansOf]
    have := mul_le_mul_of_nonneg_right h hpi.le
    linarith
  have m₁ : π / 4 + radiansOf lat₁ / 2 ∈ Set.Ioo (-(π / 2)) (π / 2) :=
    ⟨by linarith [a₁.1], by linarith [a₁.2]⟩
  have m₂ : π / 4 + radiansOf lat₂ / 2 ∈ Set.Ioo (-(π / 2)) (π / 2) :=
    ⟨by linarith [a₂.1], by linarith [a₂.2]⟩
  exact Real.strictMonoOn_tan.monotoneOn m₁ m₂ (by linarith)

/-- Numeric core of the Web-Mercator bound: the tangent of
`π · 49489/3600000` (half the colatitude of 85.0511°) is at least
`exp (−π)`.  Proved from Mathlib's quartic sine/cosine bounds, the
six-digit bounds on `π` and a nine-term Taylor lower bound on `exp`. -/
lemma inv_exp_pi_le_tan : (Real.exp π)⁻¹ ≤ Real.tan (π * (49489 / 3600000)) := by
  have hpi := Real.pi_pos
  have hgt := Real.pi_gt_3141592
  have hlt := Real.pi_lt_3141593
  have hd1 : (3.141592 : ℝ) * (49489 / 3600000) < π * (49489 / 3600000) :=
    mul_lt_mul_of_pos_right hgt (by norm_num)
  have hd2 : π * (49489 / 3600000) < (3.141593 : ℝ) * (49489 / 3600000) :=
    mul_lt_mul_of_pos_right hlt (by norm_num)
  have hd0 : (0 : ℝ) < π * (49489 / 3600000) := by positivity
  have hdle1 : |π * (49489 / 3600000 : ℝ)| ≤ 1 := by
    rw [abs_of_pos hd0]
    nlinarith
  have hd2' : (π * (49489 / 3600000 : ℝ)) ^ 2 ≥ ((3.141592 : ℝ) * (49489 / 3600000)) ^ 2 := by
    apply pow_le_pow_left (by norm_num) hd1.le
  have hd3 : (π * (49489 / 3600000 : ℝ)) ^ 3 ≤ ((3.141593 : ℝ) * (49489 / 3600000)) ^ 3 :=
    pow_le_pow_left hd0.le hd2.le 3
  have hd4 : (π * (49489 / 3600000 : ℝ)) ^ 4 ≤ ((3.141593 : ℝ) * (49489 / 3600000)) ^ 4 :=
    pow_le_pow_left hd0.le hd2.le 4
  have habs : |π * (49489 / 3600000 : ℝ)| = π * (49489 / 3600000) := abs_of_pos hd0
  -- lower bound on the sine
  have hsin := abs_le.mp (Real.sin_bound hdle1)
  rw [habs] at hsin
  have hS : (3.141592 : ℝ) * (49489 / 3600000)
        - ((3.141593 : ℝ) * (49489 / 3600000)) ^ 3 / 6
        - ((3.141593 : ℝ) * (49489 / 3600000)) ^ 4 * (5 / 96)
      ≤ Real.sin (π * (49489 / 3600000)) := by
    have h₁ := hsin.1
    linarith
  -- upper bound on the cosine
  have hcos := abs_le.mp (Real.cos_bound hdle1)
  rw [habs] at hcos
  have hC : Real.cos (π * (49489 / 3600000))
      ≤ 1 - ((3.141592 : ℝ) * (49489 / 3600000)) ^ 2 / 2
        + ((3.141593 : ℝ) * (49489 / 3600000)) ^ 4 * (5 / 96) := by
    have h₂ := hcos.2
    linarith
  -- lower bound on exp π
  have hsum : (1.15210649 : ℝ) ≤ ∑ i ∈ Finset.range 9, (0.141592 : ℝ) ^ i / (Nat.factorial i : ℝ) := by
    simp only [Finset.sum_range_succ, Finset.sum_range_zero]
    norm_num [Nat.factorial]
  have hexp0 : (1.15210649 : ℝ) ≤ Real.exp 0.141592 :=
    hsum.trans (Real.sum_le_exp_of_nonneg (by norm_num) 9)
  have hsplit : Real.exp (3.141592 : ℝ)
      = Real.exp 1 * Real.exp 1 * Real.exp 1 * Real.exp 0.141592 := by
    rw [← Real.exp_add, ← Real.exp_add, ← Real.exp_add]
    norm_num
  have hexp1 := Real.exp_one_gt_d9.le
  have hE : (2.7182818283 : ℝ) * 2.7182818283 * 2.7182818283 * 1.15210649
      ≤ Real.exp π := by
    have h₃ : (2.7182818283 : ℝ) * 2.7182818283 * 2.7182818283 * 1.15210649
        ≤ Real.exp 1 * Real.exp 1 * Real.exp 1 * Real.exp 0.141592 := by
      gcongr
    have h₄ : Real.exp (3.141592 : ℝ) ≤ Real.exp π := Real.exp_le_exp.mpr hgt.le
    rw [hsplit] at h₄
    linarith
  -- put the pieces together
  have hcd : 0 < Real.cos (π * (49489 / 3600000)) := by
    apply Real.cos_pos_of_mem_Ioo
    constructor <;> nlinarith
  have hEpos : (0 : ℝ) < 2.7182818283 * 2.7182818283 * 2.7182818283 * 1.15210649 := by
    norm_num
  rw [Real.tan_eq_sin_div_cos, le_div_iff hcd]
  have hinv : (Real.exp π)⁻¹
      ≤ ((2.7182818283 : ℝ) * 2.7182818283 * 2.7182818283 * 1.15210649)⁻¹ :=
    inv_le_inv_of_le hEpos hE
  have hkey : ((2.7182818283 : ℝ) * 2.7182818283 * 2.7182818283 * 1.15210649)⁻¹
        * (1 - ((3.141592 : ℝ) * (49489 / 3600000)) ^ 2 / 2
          + ((3.141593 : ℝ) * (49489 / 3600000)) ^ 4 * (5 / 96))
      ≤ (3.141592 : ℝ) * (49489 / 3600000)
        - ((3.141593 : ℝ) * (49489 / 3600000)) ^ 3 / 6
        - ((3.141593 : ℝ) * (49489 / 3600000)) ^ 4 * (5 / 96) := by
    rw [inv_mul_le_iff hEpos]
    norm_num
  have hcc : (Real.exp π)⁻¹ * Real.cos (π * (49489 / 3600000))
      ≤ ((2.7182818283 : ℝ) * 2.7182818283 * 2.7182818283 * 1.15210649)⁻¹
        * (1 - ((3.141592 : ℝ) * (49489 / 3600000)) ^ 2 / 2
          + ((3.141593 : ℝ) * (49489 / 3600000)) ^ 4 * (5 / 96)) := by
    apply mul_le_mul hinv hC hcd.le (by positivity)
  linarith

/-- On the Web-Mercator latitude range the Mercator factor is bounded by
`exp π`, hence its logarithm by `π`. -/
lemma mercFactor_le_exp_pi {lat : ℝ} (h : |lat| ≤ 85.0511) :
    mercFactor lat ≤ Real.exp π := by
  have habs : |(85.0511 : ℝ)| ≤ 85.0511 := by
    rw [abs_of_nonneg] <;> norm_num
  have hmax : mercFactor lat ≤ mercFactor 85.0511 :=
    mercFactor_le_mercFactor h habs (le_of_abs_le h)
  have hpi := Real.pi_pos
  have hkey : mercFactor (85.0511 : ℝ) ≤ Real.exp π := by
    rw [mercFactor_eq_tan habs]
    have hang : π / 4 + radiansOf (85.0511 : ℝ) / 2
        = π / 2 - π * (49489 / 3600000) := by
      rw [radiansOf]
      ring
    rw [hang, Real.tan_pi_div_two_sub]
    have htp : 0 < Real.tan (π * (49489 / 3600000)) := by
      apply Real.tan_pos_of_pos_of_lt_pi_div_two (by positivity)
      nlinarith [Real.pi_gt_3141592, Real.pi_lt_3141593]
    calc (Real.tan (π * (49489 / 3600000)))⁻¹
        ≤ ((Real.exp π)⁻¹)⁻¹ := inv_le_inv_of_le (inv_pos.mpr (Real.exp_pos π)) inv_exp_pi_le_tan
      _ = Real.exp π := inv_inv _
  linarith

lemma log_mercFactor_le_pi {lat : ℝ} (h : |lat| ≤ 85.0511) :
    Real.log (mercFactor lat) ≤ π :=
  (Real.log_le_iff_le_exp (mercFactor_pos h)).mpr (mercFactor_le_exp_pi h)

/-! ## Lemmas: truncation and the tile-coordinate mapper -/

lemma pyInt_eq_floor {r : ℝ} (h : 0 ≤ r) : pyInt r = ⌊r⌋ := if_pos h

lemma xArg_nonneg {lon : ℝ} (h : -180 ≤ lon) (zoom : ℕ) : 0 ≤ xArg lon zoom := by
  rw [xArg]
  exact mul_nonneg (div_nonneg (by linarith) (by norm_num)) (by positivity)

lemma yArg_nonneg {lat : ℝ} (h : |lat| ≤ 85.0511) (zoom : ℕ) : 0 ≤ yArg lat zoom := by
  have hpi := Real.pi_pos
  have hlog := log_mercFactor_le_pi h
  have h1 : Real.log (mercFactor lat) / π ≤ 1 := (div_le_one hpi).mpr hlog
  rw [yArg]
  exact mul_nonneg (by linarith) (by positivity)

/-- On the Web-Mercator latitude range `_calculate_tile_coordinates`
raises nothing and truncation agrees with the floor. -/
lemma calculateTileCoordinates_eq {lat lon : ℝ} (hlat : |lat| ≤ 85.0511)
    (hlon : -180 ≤ lon) (zoom : ℕ) :
    calculateTileCoordinates lat lon zoom
      = .ok (⌊xArg lon zoom⌋, ⌊yArg lat zoom⌋) := by
  rw [calculateTileCoordinates, if_neg (not_le.mpr (mercFactor_pos hlat)),
    pyInt_eq_floor (xArg_nonneg hlon zoom), pyInt_eq_floor (yArg_nonneg hlat zoom)]

lemma xArg_le_xArg {lon₁ lon₂ : ℝ} (h : lon₁ ≤ lon₂) (zoom : ℕ) :
    xArg lon₁ zoom ≤ xArg lon₂ zoom := by
  rw [xArg, xArg]
  have h2z : (0 : ℝ) ≤ 2 ^ zoom := by positivity
  apply mul_le_mul_of_nonneg_right _ h2z
  exact (div_le_div_right (by norm_num)).mpr (by linarith)

/-- The `y` formula is antitone in the latitude on the Web-Mercator
range (larger latitudes sit further north, i.e. at smaller tile rows). -/
lemma yArg_le_yArg {lat₁ lat₂ : ℝ} (h₁ : |lat₁| ≤ 85.0511)
    (h₂ : |lat₂| ≤ 85.0511) (h : lat₁ ≤ lat₂) (zoom : ℕ) :
    yArg lat₂ zoom ≤ yArg lat₁ zoom := by
  have hpi := Real.pi_pos
  have hlog := Real.log_le_log (mercFactor_pos h₁) (mercFactor_le_mercFactor h₁ h₂ h)
  have hdiv : Real.log (mercFactor lat₁) / π ≤ Real.log (mercFactor lat₂) / π :=
    (div_le_div_right hpi).mpr hlog
  rw [yArg, yArg]
  have h2z : (0 : ℝ) ≤ 2 ^ zoom := by positivity
  apply mul_le_mul_of_nonneg_right _ h2z
  linarith

/-- `_calculate_tile_range` on the Web-Mercator range: both corner
conversions succeed and the tuple is assembled NW-corner-first. -/
lemma calculateTileRange_eq {lat_min lon_min lat_max lon_max : ℝ}
    (h₁ : |lat_min| ≤ 85.0511) (h₂ : |lat_max| ≤ 85.0511)
    (h₃ : -180 ≤ lon_min) (h₄ : -180 ≤ lon_max) (zoom : ℕ) :
    calculateTileRange lat_min lon_min lat_max lon_max zoom =
      .ok (⌊xArg lon_min zoom⌋, ⌊xArg lon_max zoom⌋,
           ⌊yArg lat_max zoom⌋, ⌊yArg lat_min zoom⌋) := by
  rw [calculateTileRange, calculateTileCoordinates_eq h₂ h₃ zoom,
    calculateTileCoordinates_eq h₁ h₄ zoom]

/-! ## Claim C4: `coordinateOf` computes the standard projection -/

/-- C4.  For every latitude in the Web-Mercator range
(`|lat| ≤ 85.0511`), every longitude in `[-180, 180]` and every
non-negative integer zoom, `_calculate_tile_coordinates` returns exactly
`(⌊(lon+180)/360·2^zoom⌋, ⌊(1 − ln(tan lat_rad + sec lat_rad)/π)/2·2^zoom⌋)`. -/
theorem coordinateOf_eq_standard_projection (lat lon : ℝ) (zoom : ℕ)
    (hlat : |lat| ≤ 85.0511) (hlon₁ : -180 ≤ lon) (hlon₂ : lon ≤ 180) :
    calculateTileCoordinates lat lon zoom =
      .ok (⌊(lon + 180) / 360 * 2 ^ zoom⌋,
           ⌊(1 - Real.log (Real.tan (lat * π / 180)
              + 1 / Real.cos (lat * π / 180)) / π) / 2 * 2 ^ zoom⌋) :=
  calculateTileCoordinates_eq hlat hlon₁ zoom

/-- Witness for C4 at `(lat, lon, zoom) = (0, 0, 1)`. -/
theorem coordinateOf_eq_standard_projection_witness :
    |(0 : ℝ)| ≤ 85.0511 ∧ -180 ≤ (0 : ℝ) ∧ (0 : ℝ) ≤ 180 ∧
    calculateTileCoordinates 0 0 1 =
      .ok (⌊((0 : ℝ) + 180) / 360 * 2 ^ 1⌋,
           ⌊(1 - Real.log (Real.tan ((0 : ℝ) * π / 180)
              + 1 / Real.cos ((0 : ℝ) * π / 180)) / π) / 2 * 2 ^ 1⌋) :=
  ⟨by rw [abs_of_nonneg] <;> norm_num, by norm_num, by norm_num,
    coordinateOf_eq_standard_projection 0 0 1
      (by rw [abs_of_nonneg] <;> norm_num) (by norm_num) (by norm_num)⟩

/-! ## Claim C9: no clamping — out-of-range latitudes raise -/

/-- C9 counterexample.  Latitude is not clamped: at `lat = 135°` the
argument of `math.log` is `tan 135° + sec 135° = −1 − √2 < 0`, so
`_calculate_tile_coordinates` raises a math domain error instead of
returning the clamped coordinate. -/
theorem coordinateOf_raises_at_135 :
    calculateTileCoordinates 135 0 0 = .error .mathDomainError := by
  have h34 : radiansOf (135 : ℝ) = π - π / 4 := by
    rw [radiansOf]
    ring
  have hsqrt2 : (0 : ℝ) < Real.sqrt 2 := by positivity
  have hcos : Real.cos (radiansOf (135 : ℝ)) = -(Real.sqrt 2 / 2) := by
    rw [h34, Real.cos_pi_sub, Real.cos_pi_div_four]
  have htan : Real.tan (radiansOf (135 : ℝ)) = -1 := by
    rw [h34, Real.tan_pi_sub, Real.tan_pi_div_four]
  have hmf : mercFactor (135 : ℝ) ≤ 0 := by
    rw [mercFactor, hcos, htan]
    have : 1 / -(Real.sqrt 2 / 2) < 0 := by
      apply div_neg_of_pos_of_neg one_pos
      linarith
    linarith
  rw [calculateTileCoordinates, if_pos hmf]

/-- C9 amended.  `_calculate_tile_coordinates` raises no error for any
latitude inside the Web-Mercator range (and any longitude and zoom); no
clamping is performed, so latitudes outside that range can raise. -/
theorem coordinateOf_defined_on_webMercator (lat lon : ℝ) (zoom : ℕ)
    (hlat : |lat| ≤ 85.0511) :
    ∃ p, calculateTileCoordinates lat lon zoom = .ok p := by
  refine ⟨(pyInt (xArg lon zoom), pyInt (yArg lat zoom)), ?_⟩
  rw [calculateTileCoordinates, if_neg (not_le.mpr (mercFactor_pos hlat))]

/-- Witness for the amended C9 at `(lat, lon, zoom) = (47, 16, 5)`. -/
theorem coordinateOf_defined_on_webMercator_witness :
    |(47 : ℝ)| ≤ 85.0511 ∧ ∃ p, calculateTileCoordinates 47 16 5 = .ok p :=
  ⟨by rw [abs_of_nonneg] <;> norm_num,
    coordinateOf_defined_on_webMercator 47 16 5 (by rw [abs_of_nonneg] <;> norm_num)⟩

/-! ## Claim C5: `rangeOf` maps the NW and SE corners -/

/-- C5.  For a proper bounding box inside the valid ranges,
`_calculate_tile_range` maps the NW corner `(lat_max, lon_min)` to
`(min_x, min_y)` and the SE corner `(lat_min, lon_max)` to
`(max_x, max_y)`, and the resulting range satisfies `min_x ≤ max_x` and
`min_y ≤ max_y` (so a bounding box inside one tile yields a 1×1 range). -/
theorem rangeOf_corners_and_valid (lat_min lon_min lat_max lon_max : ℝ)
    (zoom : ℕ) (h₁ : |lat_min| ≤ 85.0511) (h₂ : |lat_max| ≤ 85.0511)
    (h₃ : -180 ≤ lon_min) (h₄ : lon_min < lon_max) (h₅ : lon_max ≤ 180)
    (h₆ : lat_min < lat_max) :
    ∃ min_x min_y max_x max_y,
      calculateTileCoordinates lat_max lon_min zoom = .ok (min_x, min_y) ∧
      calculateTileCoordinates lat_min lon_max zoom = .ok (max_x, max_y) ∧
      calculateTileRange lat_min lon_min lat_max lon_max zoom =
        .ok (min_x, max_x, min_y, max_y) ∧
      min_x ≤ max_x ∧ min_y ≤ max_y := by
  have h₄' : -180 ≤ lon_max := by linarith
  refine ⟨⌊xArg lon_min zoom⌋, ⌊yArg lat_max zoom⌋,
    ⌊xArg lon_max zoom⌋, ⌊yArg lat_min zoom⌋,
    calculateTileCoordinates_eq h₂ h₃ zoom,
    calculateTileCoordinates_eq h₁ h₄' zoom,
    calculateTileRange_eq h₁ h₂ h₃ h₄' zoom, ?_, ?_⟩
  · exact Int.floor_le_floor (xArg_le_xArg h₄.le zoom)
  · exact Int.floor_le_floor (yArg_le_yArg h₁ h₂ h₆.le zoom)

/-- Witness for C5: the bounding box `(47.1, 16.3) – (47.2, 16.4)` at
zoom 0 (a box entirely inside one tile). -/
theorem rangeOf_corners_and_valid_witness :
    |(47.1 : ℝ)| ≤ 85.0511 ∧ |(47.2 : ℝ)| ≤ 85.0511 ∧
    -180 ≤ (16.3 : ℝ) ∧ (16.3 : ℝ) < 16.4 ∧ (16.4 : ℝ) ≤ 180 ∧
    (47.1 : ℝ) < 47.2 ∧
    (∃ min_x min_y max_x max_y,
      calculateTileCoordinates 47.2 16.3 0 = .ok (min_x, min_y) ∧
      calculateTileCoordinates 47.1 16.4 0 = .ok (max_x, max_y) ∧
      calculateTileRange 47.1 16.3 47.2 16.4 0 =
        .ok (min_x, max_x, min_y, max_y) ∧
      min_x ≤ max_x ∧ min_y ≤ max_y) :=
  ⟨by rw [abs_of_nonneg] <;> norm_num, by rw [abs_of_nonneg] <;> norm_num,
    by norm_num, by norm_num, by norm_num, by norm_num,
    rangeOf_corners_and_valid 47.1 16.3 47.2 16.4 0
      (by rw [abs_of_nonneg] <;> norm_num) (by rw [abs_of_nonneg] <;> norm_num)
      (by norm_num) (by norm_num) (by norm_num) (by norm_num)⟩

/-! ## Lemmas: pasting and the assembler -/

lemma pasteAll_dims (tiles : List TileFile) (mnx mny ts : ℤ) (c : Img) :
    (pasteAll tiles mnx mny ts c).mode = c.mode ∧
    (pasteAll tiles mnx mny ts c).width = c.width ∧
    (pasteAll tiles mnx mny ts c).height = c.height := by
  induction tiles generalizing c with
  | nil => exact ⟨rfl, rfl, rfl⟩
  | cons g rest ih => exact ih _

/-- A paste hit: reading a pixel strictly inside both the pasted block
and the destination bounds returns the source pixel. -/
lemma paste_px_inside (dst src : Img) (ox oy dx dy : ℤ)
    (h₁ : 0 ≤ dx) (h₂ : dx < src.width) (h₃ : 0 ≤ dy) (h₄ : dy < src.height)
    (h₅ : 0 ≤ ox + dx) (h₆ : ox + dx < dst.width)
    (h₇ : 0 ≤ oy + dy) (h₈ : oy + dy < dst.height) :
    (dst.paste src ox oy).px (ox + dx) (oy + dy) = src.px dx dy := by
  simp only [Img.paste]
  rw [if_pos ⟨by linarith, by linarith, by linarith, by linarith, h₅, h₆, h₇, h₈⟩]
  congr 1 <;> ring

/-- A paste miss: a pixel outside the pasted block is unchanged. -/
lemma paste_px_outside (dst src : Img) (ox oy i j : ℤ)
    (h : ¬ (ox ≤ i ∧ i < ox + src.width ∧ oy ≤ j ∧ j < oy + src.height)) :
    (dst.paste src ox oy).px i j = dst.px i j := by
  simp only [Img.paste]
  rw [if_neg]
  intro hc
  exact h ⟨hc.1, hc.2.1, hc.2.2.1, hc.2.2.2.1⟩

/-- Half-open blocks of length `ts` anchored at distinct multiples of
`ts` are disjoint. -/
lemma block_apart {A B dx ts : ℤ} (hts : 0 < ts) (hAB : A ≠ B)
    (hdx0 : 0 ≤ dx) (hdx1 : dx < ts) :
    ¬ (B * ts ≤ A * ts + dx ∧ A * ts + dx < B * ts + ts) := by
  rintro ⟨hl, hr⟩
  rcases lt_or_gt_of_ne hAB with h | h
  · have hstep : (A + 1) * ts ≤ B * ts :=
      mul_le_mul_of_nonneg_right (by omega) hts.le
    rw [add_mul, one_mul] at hstep
    linarith
  · have hstep : (B + 1) * ts ≤ A * ts :=
      mul_le_mul_of_nonneg_right (by omega) hts.le
    rw [add_mul, one_mul] at hstep
    linarith

/-- A pixel outside every pasted block survives the whole paste loop. -/
lemma pasteAll_px_of_disjoint (tiles : List TileFile) (mnx mny ts : ℤ)
    (c : Img) (i j : ℤ)
    (h : ∀ g ∈ tiles,
      ¬ ((g.x - mnx) * ts ≤ i ∧ i < (g.x - mnx) * ts + g.img.width ∧
         (g.y - mny) * ts ≤ j ∧ j < (g.y - mny) * ts + g.img.height)) :
    (pasteAll tiles mnx mny ts c).px i j = c.px i j := by
  induction tiles generalizing c with
  | nil => rfl
  | cons g rest ih =>
    have step : (c.paste g.img ((g.x - mnx) * ts) ((g.y - mny) * ts)).px i j
        = c.px i j :=
      paste_px_outside _ _ _ _ _ _ (h g (List.mem_cons_self g rest))
    have tail := ih (c.paste g.img ((g.x - mnx) * ts) ((g.y - mny) * ts))
      (fun g' hg' => h g' (List.mem_cons_of_mem g hg'))
    exact tail.trans step

/-- Core placement invariant of the paste loop: with pairwise-distinct
tile coordinates and `ts × ts` tiles, the pixel block of each listed
tile ends up holding exactly that tile's pixels, whatever the order of
the list. -/
lemma pasteAll_px_place (tiles : List TileFile) (mnx mny ts : ℤ) (hts : 0 < ts)
    (hsz : ∀ g ∈ tiles, g.img.width = ts ∧ g.img.height = ts)
    (hnodup : (tiles.map (fun g => (g.x, g.y))).Nodup)
    (f : TileFile) (hf : f ∈ tiles) (dx dy : ℤ)
    (hdx0 : 0 ≤ dx) (hdx1 : dx < ts) (hdy0 : 0 ≤ dy) (hdy1 : dy < ts)
    (c : Img)
    (hPx0 : 0 ≤ (f.x - mnx) * ts + dx) (hPx1 : (f.x - mnx) * ts + dx < c.width)
    (hPy0 : 0 ≤ (f.y - mny) * ts + dy) (hPy1 : (f.y - mny) * ts + dy < c.height) :
    (pasteAll tiles mnx mny ts c).px ((f.x - mnx) * ts + dx) ((f.y - mny) * ts + dy)
      = f.img.px dx dy := by
  induction tiles generalizing c with
  | nil => exact absurd hf (List.not_mem_nil f)
  | cons g rest ih =>
    rw [List.map_cons, List.nodup_cons] at hnodup
    rcases List.mem_cons.mp hf with hfg | hfr
    · subst hfg
      have hfsz := hsz f (List.mem_cons_self f rest)
      have step : (c.paste f.img ((f.x - mnx) * ts) ((f.y - mny) * ts)).px
          ((f.x - mnx) * ts + dx) ((f.y - mny) * ts + dy) = f.img.px dx dy :=
        paste_px_inside c f.img _ _ dx dy hdx0 (hfsz.1 ▸ hdx1) hdy0 (hfsz.2 ▸ hdy1)
          hPx0 hPx1 hPy0 hPy1
      have rest_disj : ∀ g' ∈ rest,
          ¬ ((g'.x - mnx) * ts ≤ (f.x - mnx) * ts + dx ∧
             (f.x - mnx) * ts + dx < (g'.x - mnx) * ts + g'.img.width ∧
             (g'.y - mny) * ts ≤ (f.y - mny) * ts + dy ∧
             (f.y - mny) * ts + dy < (g'.y - mny) * ts + g'.img.height) := by
        intro g' hg' hc
        have hg'sz := hsz g' (List.mem_cons_of_mem f hg')
        have hne : (g'.x, g'.y) ≠ (f.x, f.y) := by
          intro he
          exact hnodup.1 (List.mem_map.mpr ⟨g', hg', he⟩)
        by_cases hx : g'.x = f.x
        · have hy : g'.y ≠ f.y := by
            intro hy
            exact hne (by rw [hx, hy])
          exact block_apart hts (by omega : f.y - mny ≠ g'.y - mny) hdy0 hdy1
            ⟨hc.2.2.1, hg'sz.2 ▸ hc.2.2.2⟩
        · exact block_apart hts (by omega : f.x - mnx ≠ g'.x - mnx) hdx0 hdx1
            ⟨hc.1, hg'sz.1 ▸ hc.2.1⟩
      have tail := pasteAll_px_of_disjoint rest mnx mny ts
        (c.paste f.img ((f.x - mnx) * ts) ((f.y - mny) * ts)) _ _ rest_disj
      exact tail.trans step
    · exact ih (fun g' hg' => hsz g' (List.mem_cons_of_mem g hg')) hnodup.2 hfr
        (c.paste g.img ((g.x - mnx) * ts) ((g.y - mny) * ts)) hPx1 hPy1

/-! ## Claim C3: canvas dimensions are fixed by the range alone -/

/-- C3.  For every tile range (`min ≤ max` on both axes) and every list
of arrived tiles — including none — `_assemble_tiles` succeeds and
returns an `'RGB'` canvas (three 8-bit channels, the `Pixel` type) of
exactly `(max_x - min_x + 1) * ts` by `(max_y - min_y + 1) * ts` pixels;
the dimensions do not depend on the tile list. -/
theorem canvas_dims_fixed (tiles : List TileFile) (mnx mxx mny mxy ts : ℤ)
    (hx : mnx ≤ mxx) (hy : mny ≤ mxy) (hts : 0 ≤ ts) :
    ∃ canvas, assembleTiles tiles mnx mxx mny mxy ts = .ok canvas ∧
      canvas.width = (mxx - mnx + 1) * ts ∧
      canvas.height = (mxy - mny + 1) * ts ∧
      canvas.mode = "RGB" := by
  have hw : 0 ≤ (mxx - mnx + 1) * ts := mul_nonneg (by omega) hts
  have hh : 0 ≤ (mxy - mny + 1) * ts := mul_nonneg (by omega) hts
  refine ⟨pasteAll tiles mnx mny ts
    ⟨"RGB", (mxx - mnx + 1) * ts, (mxy - mny + 1) * ts, fun _ _ => background⟩,
    ?_, ?_, ?_, ?_⟩
  · rw [assembleTiles, imageNew, if_pos ⟨hw, hh⟩]
  · exact (pasteAll_dims tiles mnx mny ts _).2.1
  · exact (pasteAll_dims tiles mnx mny ts _).2.2
  · exact (pasteAll_dims tiles mnx mny ts _).1

/-- Witness for C3 with an empty tile list on the 1×1 range at tile size
256. -/
theorem canvas_dims_fixed_witness :
    (0 : ℤ) ≤ 0 ∧ (0 : ℤ) ≤ 0 ∧ (0 : ℤ) ≤ 256 ∧
    ∃ canvas, assembleTiles [] 0 0 0 0 256 = .ok canvas ∧
      canvas.width = (0 - 0 + 1) * 256 ∧
      canvas.height = (0 - 0 + 1) * 256 ∧
      canvas.mode = "RGB" :=
  ⟨le_refl 0, le_refl 0, by norm_num,
    canvas_dims_fixed [] 0 0 0 0 256 (le_refl 0) (le_refl 0) (by norm_num)⟩

/-! ## Claim C2: each tile lands exactly at its own offset -/

/-- C2.  For every list of fetched `ts × ts` tiles with pairwise
distinct coordinates inside the tile range, the assembler copies each
tile's pixel block to the canvas exactly at pixel offset
`((x - min_x) * ts, (y - min_y) * ts)`: every pixel `(dx, dy)` of the
tile is found at that offset in the assembled canvas.  The statement
quantifies over arbitrary list orders, so the destination depends only
on the tile's own coordinate, not on arrival order. -/
theorem assemble_places_each_tile (tiles : List TileFile) (mnx mxx mny mxy ts : ℤ)
    (hts : 0 < ts)
    (hsz : ∀ g ∈ tiles, g.img.width = ts ∧ g.img.height = ts)
    (hrange : ∀ g ∈ tiles, mnx ≤ g.x ∧ g.x ≤ mxx ∧ mny ≤ g.y ∧ g.y ≤ mxy)
    (hnodup : (tiles.map (fun g => (g.x, g.y))).Nodup)
    (f : TileFile) (hf : f ∈ tiles) (dx dy : ℤ)
    (hdx0 : 0 ≤ dx) (hdx1 : dx < ts) (hdy0 : 0 ≤ dy) (hdy1 : dy < ts) :
    ∃ canvas, assembleTiles tiles mnx mxx mny mxy ts = .ok canvas ∧
      canvas.px ((f.x - mnx) * ts + dx) ((f.y - mny) * ts + dy)
        = f.img.px dx dy := by
  obtain ⟨hfx1, hfx2, hfy1, hfy2⟩ := hrange f hf
  have hw : 0 ≤ (mxx - mnx + 1) * ts := mul_nonneg (by omega) hts.le
  have hh : 0 ≤ (mxy - mny + 1) * ts := mul_nonneg (by omega) hts.le
  refine ⟨pasteAll tiles mnx mny ts
    ⟨"RGB", (mxx - mnx + 1) * ts, (mxy - mny + 1) * ts, fun _ _ => background⟩,
    ?_, ?_⟩
  · rw [assembleTiles, imageNew, if_pos ⟨hw, hh⟩]
  · have hx0 : (0 : ℤ) ≤ (f.x - mnx) * ts := mul_nonneg (by omega) hts.le
    have hy0 : (0 : ℤ) ≤ (f.y - mny) * ts := mul_nonneg (by omega) hts.le
    have hx1 : (f.x - mnx + 1) * ts ≤ (mxx - mnx + 1) * ts :=
      mul_le_mul_of_nonneg_right (by omega) hts.le
    have hy1 : (f.y - mny + 1) * ts ≤ (mxy - mny + 1) * ts :=
      mul_le_mul_of_nonneg_right (by omega) hts.le
    rw [add_mul, one_mul] at hx1 hy1
    exact pasteAll_px_place tiles mnx mny ts hts hsz hnodup f hf dx dy
      hdx0 hdx1 hdy0 hdy1 _
      (by linarith)
      (by show (f.x - mnx) * ts + dx < (mxx - mnx + 1) * ts; linarith)
      (by linarith)
      (by show (f.y - mny) * ts + dy < (mxy - mny + 1) * ts; linarith)

/-- Witness for C2: a single 1×1 marker tile at coordinate `(0, 0)` on
the 1×1 range with tile size 1. -/
theorem assemble_places_each_tile_witness :
    (0 : ℤ) < 1 ∧
    (∀ g ∈ [(⟨0, 0, ⟨"RGB", 1, 1, fun _ _ => (7, 7, 7)⟩⟩ : TileFile)],
      g.img.width = 1 ∧ g.img.height = 1) ∧
    (∀ g ∈ [(⟨0, 0, ⟨"RGB", 1, 1, fun _ _ => (7, 7, 7)⟩⟩ : TileFile)],
      (0 : ℤ) ≤ g.x ∧ g.x ≤ 0 ∧ (0 : ℤ) ≤ g.y ∧ g.y ≤ 0) ∧
    (∃ canvas,
      assembleTiles [(⟨0, 0, ⟨"RGB", 1, 1, fun _ _ => (7, 7, 7)⟩⟩ : TileFile)]
        0 0 0 0 1 = .ok canvas ∧
      canvas.px (((⟨0, 0, ⟨"RGB", 1, 1, fun _ _ => (7, 7, 7)⟩⟩ : TileFile).x - 0) * 1 + 0)
          (((⟨0, 0, ⟨"RGB", 1, 1, fun _ _ => (7, 7, 7)⟩⟩ : TileFile).y - 0) * 1 + 0)
        = (⟨0, 0, ⟨"RGB", 1, 1, fun _ _ => (7, 7, 7)⟩⟩ : TileFile).img.px 0 0) :=
  ⟨by norm_num,
    by intro g hg; rw [List.mem_singleton] at hg; rw [hg]; exact ⟨rfl, rfl⟩,
    by intro g hg; rw [List.mem_singleton] at hg; rw [hg]; norm_num,
    assemble_places_each_tile _ 0 0 0 0 1 (by norm_num)
      (by intro g hg; rw [List.mem_singleton] at hg; rw [hg]; exact ⟨rfl, rfl⟩)
      (by intro g hg; rw [List.mem_singleton] at hg; rw [hg]; norm_num)
      (by simp)
      _ (List.mem_singleton.mpr rfl) 0 0 (le_refl 0) (by norm_num)
      (le_refl 0) (by norm_num)⟩

/-! ## Claim C6: the georeferencer's affine transform round-trips -/

lemma fromBounds_ok (west south east north width height : ℝ)
    (hw : width ≠ 0) (hh : height ≠ 0) :
    fromBounds west south east north width height
      = .ok ⟨(east - west) / width, 0, west, 0, (south - north) / height,
          north⟩ := by
  rw [fromBounds, if_neg]
  rintro (h | h)
  · exact hw h
  · exact hh h

lemma fromBounds_err (west south east north width height : ℝ)
    (h : width = 0 ∨ height = 0) :
    fromBounds west south east north width height
      = .error .zeroDivisionError := by
  rw [fromBounds, if_pos h]

lemma saveAsGeotiff_ok (img : Img) (output_file : String)
    (mnx mxx mny mxy ts : ℤ) (crs : String)
    (hw : img.width ≠ 0) (hh : img.height ≠ 0) :
    saveAsGeotiff img output_file mnx mxx mny mxy ts crs
      = .ok ⟨output_file, img.height, img.width, 3, "uint8", crs,
          ⟨((((mxx + 1) * ts : ℤ) : ℝ) - ((mnx * ts : ℤ) : ℝ)) / (img.width : ℝ),
           0, ((mnx * ts : ℤ) : ℝ), 0,
           ((((mxy + 1) * ts : ℤ) : ℝ) - ((mny * ts : ℤ) : ℝ)) / (img.height : ℝ),
           ((mny * ts : ℤ) : ℝ)⟩⟩ := by
  have hw' : (img.width : ℝ) ≠ 0 := Int.cast_ne_zero.mpr hw
  have hh' : (img.height : ℝ) ≠ 0 := Int.cast_ne_zero.mpr hh
  simp only [saveAsGeotiff, fromBounds_ok _ _ _ _ _ _ hw' hh']

/-- C6.  `_save_as_geotiff` computes the world bounds
`west = min_x·ts`, `north = min_y·ts`, `east = (max_x+1)·ts`,
`south = (max_y+1)·ts`, succeeds on any image of positive size, and the
affine transform it embeds maps pixel `(0, 0)` to `(west, north)` and
pixel `(width, height)` to `(east, south)` — exactly, over the reals. -/
theorem geotiff_transform_roundtrip (img : Img) (output_file : String)
    (mnx mxx mny mxy ts : ℤ) (crs : String)
    (hw : 0 < img.width) (hh : 0 < img.height) :
    ∃ gt, saveAsGeotiff img output_file mnx mxx mny mxy ts crs = .ok gt ∧
      gt.transform.apply 0 0 = (((mnx * ts : ℤ) : ℝ), ((mny * ts : ℤ) : ℝ)) ∧
      gt.transform.apply (img.width : ℝ) (img.height : ℝ)
        = ((((mxx + 1) * ts : ℤ) : ℝ), (((mxy + 1) * ts : ℤ) : ℝ)) := by
  have hw' : (img.width : ℝ) ≠ 0 := Int.cast_ne_zero.mpr hw.ne'
  have hh' : (img.height : ℝ) ≠ 0 := Int.cast_ne_zero.mpr hh.ne'
  refine ⟨_, saveAsGeotiff_ok img output_file mnx mxx mny mxy ts crs
    hw.ne' hh.ne', ?_, ?_⟩
  · simp only [Affine.apply, Prod.mk.injEq]
    constructor <;> ring
  · simp only [Affine.apply, Prod.mk.injEq]
    constructor
    · field_simp
    · field_simp

/-- Witness for C6: a 2×3 image on the range `(0,2)–(1,4)` at tile size
256. -/
theorem geotiff_transform_roundtrip_witness :
    (0 : ℤ) < (⟨"RGB", 2, 3, fun _ _ => background⟩ : Img).width ∧
    (0 : ℤ) < (⟨"RGB", 2, 3, fun _ _ => background⟩ : Img).height ∧
    ∃ gt, saveAsGeotiff ⟨"RGB", 2, 3, fun _ _ => background⟩ "out.tif" 0 1 2 4
        256 "EPSG:3857" = .ok gt ∧
      gt.transform.apply 0 0 = (((0 * 256 : ℤ) : ℝ), ((2 * 256 : ℤ) : ℝ)) ∧
      gt.transform.apply ((⟨"RGB", 2, 3, fun _ _ => background⟩ : Img).width : ℝ)
          ((⟨"RGB", 2, 3, fun _ _ => background⟩ : Img).height : ℝ)
        = ((((1 + 1) * 256 : ℤ) : ℝ), (((4 + 1) * 256 : ℤ) : ℝ)) :=
  ⟨by norm_num, by norm_num,
    geotiff_transform_roundtrip ⟨"RGB", 2, 3, fun _ _ => background⟩ "out.tif"
      0 1 2 4 256 "EPSG:3857" (by norm_num) (by norm_num)⟩

/-! ## Claim C10: the singleton protocol -/

/-- C10.  A first construction succeeds only with the default arguments
(any explicit argument makes `object.__new__` raise `TypeError`, leaving
no instance); the successful first construction stores the default
configuration, initialises the instance and clears the working
directory.  Every construction after it — whatever arguments it passes,
explicit or not — returns the very same instance with the first
construction's `tile_size` / `output_dir` / `crs`, leaves the class
state unchanged, ignores the new arguments and performs no
re-initialisation (the directory-clearing flag is `false`). -/
theorem singleton_construction (args : Option (ℤ × String × String)) :
    constructDownloader none none
      = .ok (⟨256, "downloaded_tiles", "EPSG:3857", true⟩,
          some ⟨256, "downloaded_tiles", "EPSG:3857", true⟩, true) ∧
    (∀ a : ℤ × String × String,
      constructDownloader none (some a) = .error .typeError) ∧
    constructDownloader (some ⟨256, "downloaded_tiles", "EPSG:3857", true⟩) args
      = .ok (⟨256, "downloaded_tiles", "EPSG:3857", true⟩,
          some ⟨256, "downloaded_tiles", "EPSG:3857", true⟩, false) :=
  ⟨rfl, fun _ => rfl, rfl⟩

/-! ## Run-level helper lemmas -/

lemma downloadTileAsync_eq_none {o : FetchOutcome} (h : isFetchFailure o)
    (x y : ℤ) : downloadTileAsync x y o = none := by
  cases o with
  | response s b => exact if_neg h
  | transportError => rfl

lemma assembleTiles_ok (tiles : List TileFile) (mnx mxx mny mxy ts : ℤ)
    (hw : 0 ≤ (mxx - mnx + 1) * ts) (hh : 0 ≤ (mxy - mny + 1) * ts) :
    assembleTiles tiles mnx mxx mny mxy ts
      = .ok (pasteAll tiles mnx mny ts
          ⟨"RGB", (mxx - mnx + 1) * ts, (mxy - mny + 1) * ts,
            fun _ _ => background⟩) := by
  rw [assembleTiles, imageNew, if_pos ⟨hw, hh⟩]

/-- Unfolding of a successful `download_tiles` run. -/
lemma downloadTilesRun_ok (lat_min lon_min lat_max lon_max : ℝ) (zoom : ℕ)
    (layer style tms output_file : String) (oracle : ℤ × ℤ → FetchOutcome)
    (ts : ℤ) (crs : String) (mnx mxx mny mxy : ℤ)
    (hr : calculateTileRange lat_min lon_min lat_max lon_max zoom
      = .ok (mnx, mxx, mny, mxy))
    (img : Img)
    (ha : assembleTiles
      (downloadTilesInParallel (tileRequests layer style tms zoom mnx mxx mny mxy)
        oracle) mnx mxx mny mxy ts = .ok img)
    (gt : GeoTiff)
    (hs : saveAsGeotiff img output_file mnx mxx mny mxy ts crs = .ok gt) :
    downloadTilesRun lat_min lon_min lat_max lon_max zoom layer style tms
        output_file oracle ts crs
      = .ok ⟨tileRequests layer style tms zoom mnx mxx mny mxy,
          downloadTilesInParallel (tileRequests layer style tms zoom mnx mxx mny mxy)
            oracle,
          img, gt, none⟩ := by
  simp only [downloadTilesRun, hr, ha, hs]

/-- A run over a well-ordered tile range with a positive tile size
completes, whatever the fetch outcomes: the canvas keeps the full range
dimensions, the function returns `None`, and the three-band raster
metadata carries the caller's path and CRS. -/
lemma run_ok_of_range (lat_min lon_min lat_max lon_max : ℝ) (zoom : ℕ)
    (layer style tms output_file : String) (oracle : ℤ × ℤ → FetchOutcome)
    (ts : ℤ) (crs : String) (mnx mxx mny mxy : ℤ)
    (hr : calculateTileRange lat_min lon_min lat_max lon_max zoom
      = .ok (mnx, mxx, mny, mxy))
    (hx : mnx ≤ mxx) (hy : mny ≤ mxy) (hts : 0 < ts) :
    ∃ tr, downloadTilesRun lat_min lon_min lat_max lon_max zoom layer style tms
        output_file oracle ts crs = .ok tr ∧
      tr.files = downloadTilesInParallel
        (tileRequests layer style tms zoom mnx mxx mny mxy) oracle ∧
      tr.image = pasteAll
        (downloadTilesInParallel (tileRequests layer style tms zoom mnx mxx mny mxy)
          oracle) mnx mny ts
        ⟨"RGB", (mxx - mnx + 1) * ts, (mxy - mny + 1) * ts, fun _ _ => background⟩ ∧
      tr.image.width = (mxx - mnx + 1) * ts ∧
      tr.image.height = (mxy - mny + 1) * ts ∧
      tr.retval = none ∧
      tr.written.path = output_file ∧
      tr.written.count = 3 ∧
      tr.written.crs = crs := by
  have ha := assembleTiles_ok
    (downloadTilesInParallel (tileRequests layer style tms zoom mnx mxx mny mxy)
      oracle) mnx mxx mny mxy ts
    (mul_nonneg (by omega) hts.le) (mul_nonneg (by omega) hts.le)
  have hdims := pasteAll_dims
    (downloadTilesInParallel (tileRequests layer style tms zoom mnx mxx mny mxy)
      oracle) mnx mny ts
    ⟨"RGB", (mxx - mnx + 1) * ts, (mxy - mny + 1) * ts, fun _ _ => background⟩
  have hwne : (pasteAll
      (downloadTilesInParallel (tileRequests layer style tms zoom mnx mxx mny mxy)
        oracle) mnx mny ts
      ⟨"RGB", (mxx - mnx + 1) * ts, (mxy - mny + 1) * ts,
        fun _ _ => background⟩).width ≠ 0 := by
    rw [hdims.2.1]
    show (mxx - mnx + 1) * ts ≠ 0
    exact (mul_pos (by omega) hts).ne'
  have hhne : (pasteAll
      (downloadTilesInParallel (tileRequests layer style tms zoom mnx mxx mny mxy)
        oracle) mnx mny ts
      ⟨"RGB", (mxx - mnx + 1) * ts, (mxy - mny + 1) * ts,
        fun _ _ => background⟩).height ≠ 0 := by
    rw [hdims.2.2]
    show (mxy - mny + 1) * ts ≠ 0
    exact (mul_pos (by omega) hts).ne'
  have hs := saveAsGeotiff_ok _ output_file mnx mxx mny mxy ts crs hwne hhne
  exact ⟨_, downloadTilesRun_ok lat_min lon_min lat_max lon_max zoom layer style
    tms output_file oracle ts crs mnx mxx mny mxy hr _ ha _ hs,
    rfl, rfl, hdims.2.1, hdims.2.2, rfl, rfl, rfl, rfl⟩

lemma intRange_eq_nil {lo hi : ℤ} (h : hi < lo) : intRange lo hi = [] := by
  rw [intRange]
  have h0 : (hi + 1 - lo).toNat = 0 := by omega
  rw [h0]
  rfl

/-- At zoom 0 every point of the (northern-hemisphere) Web-Mercator
range lands in tile `(0, 0)`. -/
lemma coords_zoom0 {lat lon : ℝ} (h0 : 0 ≤ lat) (h1 : lat ≤ 85.0511)
    (h2 : -180 ≤ lon) (h3 : lon < 180) :
    calculateTileCoordinates lat lon 0 = .ok (0, 0) := by
  have habs : |lat| ≤ 85.0511 := by rwa [abs_of_nonneg h0]
  rw [calculateTileCoordinates_eq habs h2 0]
  have hx : ⌊xArg lon 0⌋ = 0 := by
    rw [Int.floor_eq_iff]
    rw [xArg, pow_zero, mul_one]
    norm_num
    constructor
    · linarith
    · linarith
  have hy : ⌊yArg lat 0⌋ = 0 := by
    have hpi := Real.pi_pos
    have hθ0 : 0 ≤ radiansOf lat := by
      rw [radiansOf]
      positivity
    have hθp := (abs_lt.mp (abs_radiansOf_lt_pi_div_two habs)).2
    have htan : 0 ≤ Real.tan (radiansOf lat) :=
      Real.tan_nonneg_of_nonneg_of_le_pi_div_two hθ0 hθp.le
    have hcos := cos_radiansOf_pos habs
    have hcos1 : Real.cos (radiansOf lat) ≤ 1 := Real.cos_le_one _
    have hsec : 1 ≤ 1 / Real.cos (radiansOf lat) := by
      rw [le_div_iff hcos]
      linarith
    have hf1 : 1 ≤ mercFactor lat := by
      rw [mercFactor]
      linarith
    have hlog0 : 0 ≤ Real.log (mercFactor lat) := Real.log_nonneg hf1
    have hdiv : 0 ≤ Real.log (mercFactor lat) / π := div_nonneg hlog0 hpi.le
    rw [Int.floor_eq_iff]
    constructor
    · exact_mod_cast yArg_nonneg habs 0
    · rw [yArg, pow_zero, mul_one]
      push_cast
      linarith
  rw [hx, hy]

/-! ## Claim C1: per-tile failures are absorbed; an all-failure run completes -/

/-- C1.  Every failed fetch (non-success status or transport error)
yields `None` — the `try/except` absorbs the exception — and when every
fetch fails, `download_tiles` on a valid request still completes: the
canvas is fully background-coloured, keeps its full dimensions, and a
raster file is written at the requested path with three bands. -/
theorem fetch_failures_recovered
    (lat_min lon_min lat_max lon_max : ℝ) (zoom : ℕ)
    (layer style tms output_file : String) (oracle : ℤ × ℤ → FetchOutcome)
    (ts : ℤ) (crs : String)
    (h₁ : |lat_min| ≤ 85.0511) (h₂ : |lat_max| ≤ 85.0511)
    (h₃ : -180 ≤ lon_min) (h₄ : lon_min ≤ lon_max) (h₅ : lon_max ≤ 180)
    (h₆ : lat_min ≤ lat_max) (hts : 0 < ts)
    (hfail : ∀ p, isFetchFailure (oracle p)) :
    (∀ x y o, isFetchFailure o → downloadTileAsync x y o = none) ∧
    ∃ tr, downloadTilesRun lat_min lon_min lat_max lon_max zoom layer style tms
        output_file oracle ts crs = .ok tr ∧
      tr.files = [] ∧
      (∀ i j, tr.image.px i j = background) ∧
      tr.image.width = (⌊xArg lon_max zoom⌋ - ⌊xArg lon_min zoom⌋ + 1) * ts ∧
      tr.image.height = (⌊yArg lat_min zoom⌋ - ⌊yArg lat_max zoom⌋ + 1) * ts ∧
      tr.written.path = output_file ∧
      tr.written.count = 3 := by
  refine ⟨fun x y o ho => downloadTileAsync_eq_none ho x y, ?_⟩
  have h₄' : -180 ≤ lon_max := by linarith
  have hr := calculateTileRange_eq h₁ h₂ h₃ h₄' zoom
  have hxm : ⌊xArg lon_min zoom⌋ ≤ ⌊xArg lon_max zoom⌋ :=
    Int.floor_le_floor (xArg_le_xArg h₄ zoom)
  have hym : ⌊yArg lat_max zoom⌋ ≤ ⌊yArg lat_min zoom⌋ :=
    Int.floor_le_floor (yArg_le_yArg h₁ h₂ h₆ zoom)
  have hfiles : downloadTilesInParallel
      (tileRequests layer style tms zoom ⌊xArg lon_min zoom⌋ ⌊xArg lon_max zoom⌋
        ⌊yArg lat_max zoom⌋ ⌊yArg lat_min zoom⌋) oracle = [] := by
    rw [downloadTilesInParallel, List.filterMap_eq_nil]
    intro r hr'
    exact downloadTileAsync_eq_none (hfail (r.2.1, r.2.2)) r.2.1 r.2.2
  obtain ⟨tr, hrun, hfl, himg, hiw, hih, hret, hpath, hcount, hcrs⟩ :=
    run_ok_of_range lat_min lon_min lat_max lon_max zoom layer style tms
      output_file oracle ts crs _ _ _ _ hr hxm hym hts
  refine ⟨tr, hrun, ?_, ?_, hiw, hih, hpath, hcount⟩
  · rw [hfl, hfiles]
  · intro i j
    rw [himg, hfiles]
    rfl

/-- Witness for C1: the box `(47.1, 16.3) – (47.2, 16.4)` at zoom 0,
tile size 256, with every fetch raising a transport error. -/
theorem fetch_failures_recovered_witness :
    |(47.1 : ℝ)| ≤ 85.0511 ∧ |(47.2 : ℝ)| ≤ 85.0511 ∧ -180 ≤ (16.3 : ℝ) ∧
    (16.3 : ℝ) ≤ 16.4 ∧ (16.4 : ℝ) ≤ 180 ∧ (47.1 : ℝ) ≤ 47.2 ∧ (0 : ℤ) < 256 ∧
    (∀ p : ℤ × ℤ, isFetchFailure ((fun _ => FetchOutcome.transportError) p)) ∧
    ((∀ x y o, isFetchFailure o → downloadTileAsync x y o = none) ∧
    ∃ tr, downloadTilesRun 47.1 16.3 47.2 16.4 0 "bmaporthofoto30cm" "normal"
        "google3857" "uploads/basemap_rgb.tif" (fun _ => FetchOutcome.transportError)
        256 "EPSG:3857" = .ok tr ∧
      tr.files = [] ∧
      (∀ i j, tr.image.px i j = background) ∧
      tr.image.width = (⌊xArg 16.4 0⌋ - ⌊xArg 16.3 0⌋ + 1) * 256 ∧
      tr.image.height = (⌊yArg 47.1 0⌋ - ⌊yArg 47.2 0⌋ + 1) * 256 ∧
      tr.written.path = "uploads/basemap_rgb.tif" ∧
      tr.written.count = 3) :=
  ⟨by rw [abs_of_nonneg] <;> norm_num, by rw [abs_of_nonneg] <;> norm_num,
    by norm_num, by norm_num, by norm_num, by norm_num, by norm_num,
    fun _ => trivial,
    fetch_failures_recovered 47.1 16.3 47.2 16.4 0 "bmaporthofoto30cm" "normal"
      "google3857" "uploads/basemap_rgb.tif" (fun _ => FetchOutcome.transportError)
      256 "EPSG:3857"
      (by rw [abs_of_nonneg] <;> norm_num) (by rw [abs_of_nonneg] <;> norm_num)
      (by norm_num) (by norm_num) (by norm_num) (by norm_num) (by norm_num)
      (fun _ => trivial)⟩

/-! ## Claim C7: no validation of degenerate or inverted boxes -/

/-- C7 counterexample.  With the inverted bounding box
`lat_min = 47.2 > lat_max = 47.1` at zoom 0, `download_tiles` raises no
`InvalidRangeError` at all: it issues one tile request and completes
successfully.  No validation is surfaced before the fetch. -/
theorem inverted_bbox_not_rejected :
    runOk (downloadTilesRun 47.2 16.3 47.1 16.4 0 "bmaporthofoto30cm" "normal"
        "google3857" "uploads/basemap_rgb.tif" (fun _ => FetchOutcome.transportError)
        256 "EPSG:3857") = true ∧
    runRequests (downloadTilesRun 47.2 16.3 47.1 16.4 0 "bmaporthofoto30cm"
        "normal" "google3857" "uploads/basemap_rgb.tif"
        (fun _ => FetchOutcome.transportError) 256 "EPSG:3857")
      = some [(tileURL "bmaporthofoto30cm" "normal" "google3857" 0 0 0, 0, 0)] := by
  have hr : calculateTileRange (47.2 : ℝ) 16.3 47.1 16.4 0 = .ok (0, 0, 0, 0) := by
    rw [calculateTileRange,
      coords_zoom0 (by norm_num) (by norm_num) (by norm_num) (by norm_num),
      coords_zoom0 (by norm_num) (by norm_num) (by norm_num) (by norm_num)]
  have ha : assembleTiles (downloadTilesInParallel
        (tileRequests "bmaporthofoto30cm" "normal" "google3857" 0 0 0 0 0)
        (fun _ => FetchOutcome.transportError)) 0 0 0 0 256
      = .ok ⟨"RGB", 256, 256, fun _ _ => background⟩ := rfl
  have hs := saveAsGeotiff_ok (⟨"RGB", 256, 256, fun _ _ => background⟩ : Img)
    "uploads/basemap_rgb.tif" 0 0 0 0 256 "EPSG:3857" (by decide) (by decide)
  rw [downloadTilesRun_ok 47.2 16.3 47.1 16.4 0 "bmaporthofoto30cm" "normal"
    "google3857" "uploads/basemap_rgb.tif" (fun _ => FetchOutcome.transportError)
    256 "EPSG:3857" 0 0 0 0 hr _ ha _ hs]
  exact ⟨rfl, rfl⟩

/-- C7 amended.  The code performs no bounding-box validation and
defines no `InvalidRangeError`; failures of an inverted box never
precede the fetch phase.  When the computed tile range is inverted on
some axis the request list is empty and the run fails later: inverted by
two or more, the negative canvas size raises a PIL `ValueError` during
canvas allocation (assembly stage); inverted by exactly one, the
zero-size canvas passes PIL and `from_bounds` raises
`ZeroDivisionError` during writing.  (When the inverted box still
collapses to a single tile, the run completes normally, as the
counterexample shows.) -/
theorem inverted_range_error_after_fetch_phase
    (lat_min lon_min lat_max lon_max : ℝ) (zoom : ℕ)
    (layer style tms output_file : String) (oracle : ℤ × ℤ → FetchOutcome)
    (ts : ℤ) (crs : String) (mnx mxx mny mxy : ℤ)
    (hr : calculateTileRange lat_min lon_min lat_max lon_max zoom
      = .ok (mnx, mxx, mny, mxy))
    (hts : 0 < ts)
    (hinv : mxx < mnx ∨ mxy < mny) :
    tileRequests layer style tms zoom mnx mxx mny mxy = [] ∧
    downloadTilesRun lat_min lon_min lat_max lon_max zoom layer style tms
        output_file oracle ts crs
      = .error (if mxx + 1 < mnx ∨ mxy + 1 < mny then .valueError
          else .zeroDivisionError) := by
  have hreq : tileRequests layer style tms zoom mnx mxx mny mxy = [] := by
    rcases hinv with hx | hy
    · simp only [tileRequests, intRange_eq_nil hx, List.map_nil]
      simp
    · rw [tileRequests, intRange_eq_nil hy]
      rfl
  refine ⟨hreq, ?_⟩
  by_cases hcase : mxx + 1 < mnx ∨ mxy + 1 < mny
  · rw [if_pos hcase]
    have hneg : imageNew "RGB" ((mxx - mnx + 1) * ts) ((mxy - mny + 1) * ts)
        = .error .valueError := by
      rw [imageNew, if_neg]
      rintro ⟨hw, hh⟩
      rcases hcase with hx | hy
      · have hlt : (mxx - mnx + 1) * ts < 0 :=
          mul_neg_of_neg_of_pos (by omega) hts
        linarith
      · have hlt : (mxy - mny + 1) * ts < 0 :=
          mul_neg_of_neg_of_pos (by omega) hts
        linarith
    have hasm : assembleTiles
        (downloadTilesInParallel (tileRequests layer style tms zoom mnx mxx mny mxy)
          oracle) mnx mxx mny mxy ts = .error .valueError := by
      simp only [assembleTiles, hneg]
    simp only [downloadTilesRun, hr, hasm]
  · rw [if_neg hcase]
    push_neg at hcase
    have ha := assembleTiles_ok
      (downloadTilesInParallel (tileRequests layer style tms zoom mnx mxx mny mxy)
        oracle) mnx mxx mny mxy ts
      (mul_nonneg (by omega) hts.le) (mul_nonneg (by omega) hts.le)
    have hdims := pasteAll_dims
      (downloadTilesInParallel (tileRequests layer style tms zoom mnx mxx mny mxy)
        oracle) mnx mny ts
      ⟨"RGB", (mxx - mnx + 1) * ts, (mxy - mny + 1) * ts, fun _ _ => background⟩
    have hzero : ((pasteAll
        (downloadTilesInParallel (tileRequests layer style tms zoom mnx mxx mny mxy)
          oracle) mnx mny ts
        ⟨"RGB", (mxx - mnx + 1) * ts, (mxy - mny + 1) * ts,
          fun _ _ => background⟩).width : ℝ) = 0 ∨
        ((pasteAll
        (downloadTilesInParallel (tileRequests layer style tms zoom mnx mxx mny mxy)
          oracle) mnx mny ts
        ⟨"RGB", (mxx - mnx + 1) * ts, (mxy - mny + 1) * ts,
          fun _ _ => background⟩).height : ℝ) = 0 := by
      rcases hinv with hx | hy
      · left
        have h0 : mxx - mnx + 1 = 0 := by omega
        rw [hdims.2.1]
        show (((mxx - mnx + 1) * ts : ℤ) : ℝ) = 0
        rw [h0, zero_mul, Int.cast_zero]
      · right
        have h0 : mxy - mny + 1 = 0 := by omega
        rw [hdims.2.2]
        show (((mxy - mny + 1) * ts : ℤ) : ℝ) = 0
        rw [h0, zero_mul, Int.cast_zero]
    have hserr : saveAsGeotiff (pasteAll
        (downloadTilesInParallel (tileRequests layer style tms zoom mnx mxx mny mxy)
          oracle) mnx mny ts
        ⟨"RGB", (mxx - mnx + 1) * ts, (mxy - mny + 1) * ts,
          fun _ _ => background⟩) output_file mnx mxx mny mxy ts crs
        = .error .zeroDivisionError := by
      simp only [saveAsGeotiff, fromBounds_err _ _ _ _ _ _ hzero]
    simp only [downloadTilesRun, hr, ha, hserr]

lemma mercFactor_zero : mercFactor 0 = 1 := by
  have h0 : radiansOf (0 : ℝ) = 0 := by
    rw [radiansOf]
    ring
  rw [mercFactor, h0, Real.tan_zero, Real.cos_zero]
  norm_num

lemma coords_lat0 (lon : ℝ) (h2 : -180 ≤ lon) :
    calculateTileCoordinates 0 lon 4 = .ok (⌊xArg lon 4⌋, 8) := by
  have habs : |(0 : ℝ)| ≤ 85.0511 := by
    rw [abs_of_nonneg] <;> norm_num
  rw [calculateTileCoordinates_eq habs h2 4]
  have hy : yArg 0 4 = 8 := by
    rw [yArg, mercFactor_zero, Real.log_one]
    norm_num
  rw [hy, show ((8 : ℝ) = ((8 : ℤ) : ℝ)) by norm_num, Int.floor_intCast]

/-- Witness for the amended C7: both corners at latitude 0, longitudes
170 and −170 at zoom 4 produce the strictly inverted range
`(min_x, max_x) = (15, 0)`; the request list is empty and the run
raises `ValueError` in assembly. -/
theorem inverted_range_error_after_fetch_phase_witness :
    calculateTileRange 0 170 0 (-170) 4 = .ok (15, 0, 8, 8) ∧ (0 : ℤ) < 256 ∧
    ((0 : ℤ) < 15 ∨ (8 : ℤ) < 8) ∧
    (tileRequests "bmaporthofoto30cm" "normal" "google3857" 4 15 0 8 8 = [] ∧
    downloadTilesRun 0 170 0 (-170) 4 "bmaporthofoto30cm" "normal" "google3857"
        "uploads/basemap_rgb.tif" (fun _ => FetchOutcome.transportError) 256
        "EPSG:3857"
      = .error (if (0 : ℤ) + 1 < 15 ∨ (8 : ℤ) + 1 < 8 then .valueError
          else .zeroDivisionError)) := by
  have hx170 : ⌊xArg (170 : ℝ) 4⌋ = 15 := by
    rw [xArg, Int.floor_eq_iff]
    norm_num
  have hxm170 : ⌊xArg (-170 : ℝ) 4⌋ = 0 := by
    rw [xArg, Int.floor_eq_iff]
    norm_num
  have hr : calculateTileRange 0 170 0 (-170) 4 = .ok (15, 0, 8, 8) := by
    rw [calculateTileRange, coords_lat0 170 (by norm_num),
      coords_lat0 (-170) (by norm_num), hx170, hxm170]
  exact ⟨hr, by norm_num, Or.inl (by norm_num),
    inverted_range_error_after_fetch_phase 0 170 0 (-170) 4 "bmaporthofoto30cm"
      "normal" "google3857" "uploads/basemap_rgb.tif"
      (fun _ => FetchOutcome.transportError) 256 "EPSG:3857" 15 0 8 8 hr
      (by norm_num) (Or.inl (by norm_num))⟩

/-! ## Claim C8: the run returns `None`, not a path-and-report -/

/-- C8 counterexample.  A fully successful orchestration call (valid box,
zoom 0) returns Python `None`: the caller receives neither the output
path nor a missing-tile count — `runRetval` is `some none`, not
`some (some (path, count))`. -/
theorem download_tiles_returns_none :
    runRetval (downloadTilesRun 47.1 16.3 47.2 16.4 0 "bmaporthofoto30cm"
        "normal" "google3857" "uploads/basemap_rgb.tif"
        (fun _ => FetchOutcome.transportError) 256 "EPSG:3857") = some none := by
  have hr : calculateTileRange (47.1 : ℝ) 16.3 47.2 16.4 0 = .ok (0, 0, 0, 0) := by
    rw [calculateTileRange,
      coords_zoom0 (by norm_num) (by norm_num) (by norm_num) (by norm_num),
      coords_zoom0 (by norm_num) (by norm_num) (by norm_num) (by norm_num)]
  have ha : assembleTiles (downloadTilesInParallel
        (tileRequests "bmaporthofoto30cm" "normal" "google3857" 0 0 0 0 0)
        (fun _ => FetchOutcome.transportError)) 0 0 0 0 256
      = .ok ⟨"RGB", 256, 256, fun _ _ => background⟩ := rfl
  have hs := saveAsGeotiff_ok (⟨"RGB", 256, 256, fun _ _ => background⟩ : Img)
    "uploads/basemap_rgb.tif" 0 0 0 0 256 "EPSG:3857" (by decide) (by decide)
  rw [downloadTilesRun_ok 47.1 16.3 47.2 16.4 0 "bmaporthofoto30cm" "normal"
    "google3857" "uploads/basemap_rgb.tif" (fun _ => FetchOutcome.transportError)
    256 "EPSG:3857" 0 0 0 0 hr _ ha _ hs]
  rfl

/-- C8 amended.  On every successful run `download_tiles` returns `None`
(the missing-tile count is only logged); the output path reaches the
caller only through the `output_file` argument they supplied, at which
the three-band raster is written. -/
theorem run_returns_none_writes_at_output_path
    (lat_min lon_min lat_max lon_max : ℝ) (zoom : ℕ)
    (layer style tms output_file : String) (oracle : ℤ × ℤ → FetchOutcome)
    (ts : ℤ) (crs : String)
    (h₁ : |lat_min| ≤ 85.0511) (h₂ : |lat_max| ≤ 85.0511)
    (h₃ : -180 ≤ lon_min) (h₄ : lon_min ≤ lon_max) (h₅ : lon_max ≤ 180)
    (h₆ : lat_min ≤ lat_max) (hts : 0 < ts) :
    ∃ tr, downloadTilesRun lat_min lon_min lat_max lon_max zoom layer style tms
        output_file oracle ts crs = .ok tr ∧
      tr.retval = none ∧
      tr.written.path = output_file ∧
      tr.written.count = 3 ∧
      tr.written.crs = crs := by
  have h₄' : -180 ≤ lon_max := by linarith
  have hr := calculateTileRange_eq h₁ h₂ h₃ h₄' zoom
  have hxm : ⌊xArg lon_min zoom⌋ ≤ ⌊xArg lon_max zoom⌋ :=
    Int.floor_le_floor (xArg_le_xArg h₄ zoom)
  have hym : ⌊yArg lat_max zoom⌋ ≤ ⌊yArg lat_min zoom⌋ :=
    Int.floor_le_floor (yArg_le_yArg h₁ h₂ h₆ zoom)
  obtain ⟨tr, hrun, hfl, himg, hiw, hih, hret, hpath, hcount, hcrs⟩ :=
    run_ok_of_range lat_min lon_min lat_max lon_max zoom layer style tms
      output_file oracle ts crs _ _ _ _ hr hxm hym hts
  exact ⟨tr, hrun, hret, hpath, hcount, hcrs⟩

/-- Witness for the amended C8: the valid box at zoom 0 with an
all-success oracle. -/
theorem run_returns_none_writes_at_output_path_witness :
    |(47.1 : ℝ)| ≤ 85.0511 ∧ |(47.2 : ℝ)| ≤ 85.0511 ∧ -180 ≤ (16.3 : ℝ) ∧
    (16.3 : ℝ) ≤ 16.4 ∧ (16.4 : ℝ) ≤ 180 ∧ (47.1 : ℝ) ≤ 47.2 ∧ (0 : ℤ) < 256 ∧
    ∃ tr, downloadTilesRun 47.1 16.3 47.2 16.4 0 "bmaporthofoto30cm" "normal"
        "google3857" "uploads/basemap_rgb.tif"
        (fun _ => FetchOutcome.response 200
          (some ⟨"RGB", 256, 256, fun _ _ => (1, 2, 3)⟩)) 256 "EPSG:3857"
        = .ok tr ∧
      tr.retval = none ∧
      tr.written.path = "uploads/basemap_rgb.tif" ∧
      tr.written.count = 3 ∧
      tr.written.crs = "EPSG:3857" :=
  ⟨by rw [abs_of_nonneg] <;> norm_num, by rw [abs_of_nonneg] <;> norm_num,
    by norm_num, by norm_num, by norm_num, by norm_num, by norm_num,
    run_returns_none_writes_at_output_path 47.1 16.3 47.2 16.4 0
      "bmaporthofoto30cm" "normal" "google3857" "uploads/basemap_rgb.tif"
      (fun _ => FetchOutcome.response 200
        (some ⟨"RGB", 256, 256, fun _ _ => (1, 2, 3)⟩)) 256 "EPSG:3857"
      (by rw [abs_of_nonneg] <;> norm_num) (by rw [abs_of_nonneg] <;> norm_num)
      (by norm_num) (by norm_num) (by norm_num) (by norm_num) (by norm_num)⟩

end BasemapVerify
